import Mathlib

/-
Verification of the task-runnability dependency check
`RunnableExecDateDep._get_dep_statuses` from
`airflow-core/src/airflow/ti_deps/deps/runnable_exec_date_dep.py`.

The Python code reads the owning dag run's `logical_date`, and when it is not
`None` compares it (a `datetime.datetime`) against the UTC clock reading, the
task's optional `end_date` and the task's DAG's optional `end_date`, yielding
one failing status per violated check.  Datetimes are embedded as a record of
calendar fields plus an `aware` flag; Python raises `TypeError` when an aware
and a naive datetime are compared, which the embedding models as the
`Except.error` case.
-/

/-- A Python datetime value: calendar fields plus timezone-awareness.  All
aware datetimes in this code base are UTC-normalized, so an aware value's
offset is always +00:00. -/
structure DateTime where
  year : Nat
  month : Nat
  day : Nat
  hour : Nat
  minute : Nat
  second : Nat
  microsecond : Nat
  aware : Bool
deriving DecidableEq, Repr

/-- One decimal digit character. -/
def digitChar (n : Nat) : Char :=
  if n = 0 then '0' else if n = 1 then '1' else if n = 2 then '2' else if n = 3 then '3'
  else if n = 4 then '4' else if n = 5 then '5' else if n = 6 then '6' else if n = 7 then '7'
  else if n = 8 then '8' else '9'

/-- Two-digit zero-padded decimal rendering (Python %02d). -/
def pad2 (n : Nat) : List Char := [digitChar (n / 10 % 10), digitChar (n % 10)]

/-- Four-digit zero-padded decimal rendering (Python %04d; datetime years are at most 9999). -/
def pad4 (n : Nat) : List Char :=
  [digitChar (n / 1000 % 10), digitChar (n / 100 % 10), digitChar (n / 10 % 10), digitChar (n % 10)]

/-- Six-digit zero-padded decimal rendering (Python %06d, for microseconds). -/
def pad6 (n : Nat) : List Char :=
  [digitChar (n / 100000 % 10), digitChar (n / 10000 % 10), digitChar (n / 1000 % 10),
   digitChar (n / 100 % 10), digitChar (n / 10 % 10), digitChar (n % 10)]

/-- Python datetime.isoformat(): the fractional part appears only when the
microsecond field is non-zero, and the +00:00 offset only when the value is
timezone-aware (UTC). -/
def DateTime.isoformat (d : DateTime) : String :=
  String.mk (pad4 d.year ++ ['-'] ++ pad2 d.month ++ ['-'] ++ pad2 d.day
    ++ ['T'] ++ pad2 d.hour ++ [':'] ++ pad2 d.minute ++ [':'] ++ pad2 d.second
    ++ (if d.microsecond = 0 then [] else ['.'] ++ pad6 d.microsecond)
    ++ (if d.aware then ['+', '0', '0', ':', '0', '0'] else []))

/-- Chronological key: a mixed-radix encoding whose order on valid datetimes
(month 1-12, day 1-31, hour 0-23, minute and second 0-59, microsecond below
one million) agrees with Python's field-lexicographic datetime comparison. -/
def DateTime.key (d : DateTime) : Nat :=
  (((((d.year * 13 + d.month) * 32 + d.day) * 24 + d.hour) * 60 + d.minute) * 60 + d.second)
    * 1000000 + d.microsecond

/-- Python comparison a > b on two datetimes: raises TypeError (the error
case) when exactly one operand is timezone-aware; otherwise compares
chronologically (aware operands are all UTC here, so no offset adjustment). -/
def py_gt (a b : DateTime) : Except Unit Bool :=
  if a.aware = b.aware then Except.ok (decide (b.key < a.key)) else Except.error ()

/-- The task's DAG as read through ti.task.dag: optional, with an optional end_date. -/
structure Dag where
  end_date : Option DateTime
deriving DecidableEq, Repr

/-- The task definition as read through ti.task: an optional end_date and an optional DAG. -/
structure TaskDef where
  end_date : Option DateTime
  dag : Option Dag
deriving DecidableEq, Repr

/-- The dag run returned by ti.get_dagrun(session): carries the logical date,
which may be None. -/
structure DagRun where
  logical_date : Option DateTime
deriving DecidableEq, Repr

/-- The task instance ti passed to the dependency check (the source calls the
task definition type Task; it is named TaskDef here because Lean reserves
Task). -/
structure TaskInstance where
  task : TaskDef
  dag_run : DagRun
deriving DecidableEq, Repr

/-- ti.get_dagrun(session): returns the owning dag run (the session argument is
a data-access handle with no bearing on the returned value). -/
def TaskInstance.get_dagrun (ti : TaskInstance) : DagRun := ti.dag_run

/-- Modelled from the spec: the status record produced by the dependency base
class (not among the sources); section 3 of the spec defines it as an immutable
value with a passed flag and a reason text. -/
structure TIDepStatus where
  passed : Bool
  reason : String
deriving DecidableEq, Repr

/-- Modelled from the spec: the base class helper that wraps a reason into a
failing (passed = false) status. -/
def failing_status (reason : String) : TIDepStatus :=
  { passed := false, reason := reason }

/-- The NAME attribute of RunnableExecDateDep. -/
def NAME : String := "Logical Date"

/-- The IGNORABLE attribute of RunnableExecDateDep. -/
def IGNORABLE : Bool := true

/-- Reason string of the future-date check, source lines 41-44. -/
def future_reason (logical_date cur_date : DateTime) : String :=
  "Logical date " ++ logical_date.isoformat ++ " is in the future (the current date is "
    ++ cur_date.isoformat ++ ")."

/-- Reason string of the task end-date check, source lines 49-52. -/
def task_end_reason (logical_date end_date : DateTime) : String :=
  "The logical date is " ++ logical_date.isoformat ++ " but this is after the task\x27s end date "
    ++ end_date.isoformat ++ "."

/-- Reason string of the DAG end-date check, source lines 57-60. -/
def dag_end_reason (logical_date end_date : DateTime) : String :=
  "The logical date is " ++ logical_date.isoformat
    ++ " but this is after the task\x27s DAG\x27s end date " ++ end_date.isoformat ++ "."

/-- Source lines 39-45: if logical_date > cur_date, yield one failing status. -/
def future_check (logical_date cur_date : DateTime) : Except Unit (List TIDepStatus) :=
  match py_gt logical_date cur_date with
  | Except.error e => Except.error e
  | Except.ok b =>
      Except.ok (if b then [failing_status (future_reason logical_date cur_date)] else [])

/-- Source lines 47-53: if ti.task.end_date and logical_date > ti.task.end_date,
yield one failing status (a datetime is always truthy, None is falsy, and the
comparison is only evaluated when end_date is present). -/
def task_end_check (logical_date : DateTime) (end_date : Option DateTime) :
    Except Unit (List TIDepStatus) :=
  match end_date with
  | none => Except.ok []
  | some ed =>
      match py_gt logical_date ed with
      | Except.error e => Except.error e
      | Except.ok b =>
          Except.ok (if b then [failing_status (task_end_reason logical_date ed)] else [])

/-- Source lines 55-61: if ti.task.dag and ti.task.dag.end_date and
logical_date > ti.task.dag.end_date, yield one failing status (both guards are
evaluated before the comparison, short-circuiting left to right). -/
def dag_end_check (logical_date : DateTime) (dag : Option Dag) :
    Except Unit (List TIDepStatus) :=
  match dag with
  | none => Except.ok []
  | some d =>
      match d.end_date with
      | none => Except.ok []
      | some ed =>
          match py_gt logical_date ed with
          | Except.error e => Except.error e
          | Except.ok b =>
              Except.ok (if b then [failing_status (dag_end_reason logical_date ed)] else [])

/-- RunnableExecDateDep._get_dep_statuses, source lines 32-61, with the lazily
yielded statuses collected eagerly in yield order and the Python TypeError of a
naive/aware datetime comparison modelled as the error case.  cur_date stands
for the timezone.utcnow() reading taken during the call. -/
def get_dep_statuses (ti : TaskInstance) (cur_date : DateTime) :
    Except Unit (List TIDepStatus) :=
  match (TaskInstance.get_dagrun ti).logical_date with
  | none => Except.ok []
  | some logical_date =>
      match future_check logical_date cur_date with
      | Except.error e => Except.error e
      | Except.ok s1 =>
          match task_end_check logical_date ti.task.end_date with
          | Except.error e => Except.error e
          | Except.ok s2 =>
              match dag_end_check logical_date ti.task.dag with
              | Except.error e => Except.error e
              | Except.ok s3 => Except.ok ((s1 ++ s2) ++ s3)

/-- Modelled from the spec: is_met of the dependency base class is not among
the sources; sections 4.4 and 8 of the spec state that, for this dependency
alone, is_met is true exactly when the evaluation yields no failing status. -/
def is_met (ti : TaskInstance) (cur_date : DateTime) : Except Unit Bool :=
  Except.map (fun l => l.all (fun s => s.passed)) (get_dep_statuses ti cur_date)

/-- The end date reached through ti.task.dag and ti.task.dag.end_date: present
exactly when both guards of the third check pass. -/
def dag_end_date : Option Dag → Option DateTime
  | none => none
  | some d => d.end_date

/-- Modelled from the spec: the future-date reason wording quoted in section
4.2 step 3 of the spec, with the current instant in ISO-8601 form. -/
def spec_future_wording (cur_date : DateTime) : String :=
  "logical date is in the future (current date is " ++ cur_date.isoformat ++ ")."

/-- Decides whether pat occurs as a contiguous substring of s. -/
def contains_sub (pat s : List Char) : Bool :=
  (List.range (s.length + 1)).any (fun i => List.isPrefixOf pat (List.drop i s))

/-- The list of statuses contributed by one optional end-date check with
reason template f: empty when the bound is absent or not exceeded, one
failing status otherwise.  Used to state the evaluation lemmas. -/
def opt_part (L : DateTime) (f : DateTime → DateTime → String) :
    Option DateTime → List TIDepStatus
  | none => []
  | some e => if e.key < L.key then [failing_status (f L e)] else []

/-- Whether an optional end-of-validity bound is present and exceeded by the
logical date L. -/
def end_violates (L : DateTime) : Option DateTime → Bool
  | none => false
  | some e => decide (e.key < L.key)

-- Concrete datetimes used in scenario theorems and witnesses.

/-- 2022-01-01T00:00:00+00:00 -/
def dt2022 : DateTime := ⟨2022, 1, 1, 0, 0, 0, 0, true⟩

/-- 2023-01-01T00:00:00+00:00 -/
def dt2023 : DateTime := ⟨2023, 1, 1, 0, 0, 0, 0, true⟩

/-- 2023-06-01T00:00:00+00:00 -/
def dt2023jun : DateTime := ⟨2023, 6, 1, 0, 0, 0, 0, true⟩

/-- 2024-01-01T00:00:00+00:00 -/
def dt2024 : DateTime := ⟨2024, 1, 1, 0, 0, 0, 0, true⟩

/-- 2023-01-01T00:00:00, timezone-naive -/
def dtnaive : DateTime := ⟨2023, 1, 1, 0, 0, 0, 0, false⟩

/-- Scenario 2 of the spec: logical date 2023-01-01, task end date 2022-01-01,
DAG present with no end date. -/
def ti_s2 : TaskInstance := ⟨⟨some dt2022, some ⟨none⟩⟩, ⟨some dt2023⟩⟩

/-- A task instance with no end dates whose run has logical date 2024-01-01. -/
def ti_fut : TaskInstance := ⟨⟨none, none⟩, ⟨some dt2024⟩⟩

/-- Like ti_fut but with a DAG that has no end date: a structurally different
representation with the same logical date, task end date and effective
workflow end date. -/
def ti_fut2 : TaskInstance := ⟨⟨none, some ⟨none⟩⟩, ⟨some dt2024⟩⟩

/-- A task instance with task and DAG end dates 2022-01-01 and logical date 2023-01-01. -/
def ti_rich : TaskInstance := ⟨⟨some dt2022, some ⟨some dt2022⟩⟩, ⟨some dt2023⟩⟩

/-- A task instance whose run has no logical date. -/
def ti_nolog : TaskInstance := ⟨⟨some dt2022, some ⟨some dt2022⟩⟩, ⟨none⟩⟩

/-- A task instance with a naive logical date. -/
def ti_naive : TaskInstance := ⟨⟨none, none⟩, ⟨some dtnaive⟩⟩

/-- A task instance with no DAG, task end date 2022-01-01, logical date 2023-01-01. -/
def ti_nodag : TaskInstance := ⟨⟨some dt2022, none⟩, ⟨some dt2023⟩⟩

-- sanity examples (concrete evaluation of the embedding)
example : get_dep_statuses ti_nolog dt2023jun = Except.ok [] := rfl
example : get_dep_statuses ti_fut dt2023 =
    Except.ok [failing_status (future_reason dt2024 dt2023)] := rfl
example : get_dep_statuses ti_naive dt2023 = Except.error () := rfl
example : DateTime.isoformat dt2023 = "2023-01-01T00:00:00+00:00" := by decide

-- Helper lemmas shared by the claim theorems.

theorem string_data_mk (l : List Char) : (String.mk l).data = l := rfl

theorem failing_status_inj {r1 r2 : String} (h : failing_status r1 = failing_status r2) :
    r1 = r2 := by
  simpa [failing_status] using h

theorem future_reason_head (a b : DateTime) :
    (future_reason a b).data.head? = some 'L' := rfl

theorem task_end_reason_head (a b : DateTime) :
    (task_end_reason a b).data.head? = some 'T' := rfl

theorem dag_end_reason_head (a b : DateTime) :
    (dag_end_reason a b).data.head? = some 'T' := rfl

theorem future_reason_ne_task_end_reason (a b c d : DateTime) :
    future_reason a b ≠ task_end_reason c d := by
  intro h
  have h2 : (future_reason a b).data.head? = (task_end_reason c d).data.head? := by rw [h]
  rw [future_reason_head, task_end_reason_head] at h2
  exact absurd h2 (by decide)

theorem future_reason_ne_dag_end_reason (a b c d : DateTime) :
    future_reason a b ≠ dag_end_reason c d := by
  intro h
  have h2 : (future_reason a b).data.head? = (dag_end_reason c d).data.head? := by rw [h]
  rw [future_reason_head, dag_end_reason_head] at h2
  exact absurd h2 (by decide)

theorem digitChar_ne_G (n : Nat) : ¬ digitChar n = 'G' := by
  unfold digitChar
  split_ifs <;> decide

theorem isoformat_not_G (d : DateTime) : 'G' ∉ (DateTime.isoformat d).data := by
  have hc : ∀ n, ¬ digitChar n = 'G' := digitChar_ne_G
  have hc2 : ∀ n, ¬ 'G' = digitChar n := fun n h => hc n h.symm
  unfold DateTime.isoformat pad4 pad2 pad6
  split_ifs <;> simp [string_data_mk, hc, hc2]

theorem G_mem_dag_end_reason (a b : DateTime) : 'G' ∈ (dag_end_reason a b).data := by
  have h1 : 'G' ∈ (" but this is after the task\x27s DAG\x27s end date ").data := by decide
  unfold dag_end_reason
  simp only [String.data_append]
  exact List.mem_append.mpr
    (Or.inl (List.mem_append.mpr (Or.inl (List.mem_append.mpr (Or.inr h1)))))

theorem G_not_mem_task_end_reason (a b : DateTime) : 'G' ∉ (task_end_reason a b).data := by
  unfold task_end_reason
  simp only [String.data_append]
  intro h
  rcases List.mem_append.mp h with h1 | h1
  · rcases List.mem_append.mp h1 with h2 | h2
    · rcases List.mem_append.mp h2 with h3 | h3
      · rcases List.mem_append.mp h3 with h4 | h4
        · exact absurd h4 (by decide)
        · exact isoformat_not_G a h4
      · exact absurd h3 (by decide)
    · exact isoformat_not_G b h2
  · exact absurd h1 (by decide)

theorem task_end_reason_ne_dag_end_reason (a b c d : DateTime) :
    task_end_reason a b ≠ dag_end_reason c d := by
  intro h
  have hg := G_mem_dag_end_reason c d
  rw [← h] at hg
  exact G_not_mem_task_end_reason a b hg

theorem future_check_eq (L cur : DateTime) (h : L.aware = cur.aware) :
    future_check L cur =
      Except.ok (if cur.key < L.key then [failing_status (future_reason L cur)] else []) := by
  simp [future_check, py_gt, h]

theorem task_end_check_eq (L : DateTime) (oe : Option DateTime)
    (h : ∀ e, oe = some e → L.aware = e.aware) :
    task_end_check L oe = Except.ok (opt_part L task_end_reason oe) := by
  cases oe with
  | none => rfl
  | some e =>
    have he := h e rfl
    simp [task_end_check, py_gt, he, opt_part]

theorem dag_end_check_via_end_date (L : DateTime) (dag : Option Dag) :
    dag_end_check L dag =
      match dag_end_date dag with
      | none => Except.ok []
      | some ed =>
          match py_gt L ed with
          | Except.error e => Except.error e
          | Except.ok b =>
              Except.ok (if b then [failing_status (dag_end_reason L ed)] else []) := by
  cases dag with
  | none => rfl
  | some d => cases hd : d.end_date <;> simp [dag_end_check, dag_end_date, hd]

theorem dag_end_check_eq (L : DateTime) (dag : Option Dag)
    (h : ∀ e, dag_end_date dag = some e → L.aware = e.aware) :
    dag_end_check L dag = Except.ok (opt_part L dag_end_reason (dag_end_date dag)) := by
  rw [dag_end_check_via_end_date]
  cases hd : dag_end_date dag with
  | none => rfl
  | some e =>
    have he := h e hd
    simp [py_gt, he, opt_part]

theorem get_dep_statuses_eq (ti : TaskInstance) (cur L : DateTime)
    (hL : ti.dag_run.logical_date = some L)
    (hc : L.aware = cur.aware)
    (ht : ∀ e, ti.task.end_date = some e → L.aware = e.aware)
    (hd : ∀ e, dag_end_date ti.task.dag = some e → L.aware = e.aware) :
    get_dep_statuses ti cur = Except.ok (
      ((if cur.key < L.key then [failing_status (future_reason L cur)] else [])
        ++ opt_part L task_end_reason ti.task.end_date)
      ++ opt_part L dag_end_reason (dag_end_date ti.task.dag)) := by
  simp only [get_dep_statuses, TaskInstance.get_dagrun, hL,
    future_check_eq L cur hc, task_end_check_eq L ti.task.end_date ht,
    dag_end_check_eq L ti.task.dag hd]

theorem mem_if_singleton {s x : TIDepStatus} {c : Prop} [Decidable c]
    (h : s ∈ (if c then [x] else [])) : c ∧ s = x := by
  by_cases hc : c
  · rw [if_pos hc] at h
    exact ⟨hc, List.mem_singleton.mp h⟩
  · rw [if_neg hc] at h
    exact absurd h (List.not_mem_nil s)

theorem mem_opt_part {s : TIDepStatus} {L : DateTime} {oe : Option DateTime}
    {f : DateTime → DateTime → String} (h : s ∈ opt_part L f oe) :
    ∃ e, oe = some e ∧ e.key < L.key ∧ s = failing_status (f L e) := by
  cases oe with
  | none => exact absurd h (List.not_mem_nil s)
  | some e =>
    obtain ⟨hc, hs⟩ := mem_if_singleton h
    exact ⟨e, rfl, hc, hs⟩

theorem opt_part_eq_singleton {L e : DateTime} {oe : Option DateTime}
    (f : DateTime → DateTime → String) (hoe : oe = some e) (hlt : e.key < L.key) :
    opt_part L f oe = [failing_status (f L e)] := by
  rw [hoe]
  exact if_pos hlt

theorem length_opt_part (L : DateTime) (f : DateTime → DateTime → String)
    (oe : Option DateTime) :
    (opt_part L f oe).length = if end_violates L oe then 1 else 0 := by
  cases oe with
  | none => rfl
  | some e =>
    by_cases h : e.key < L.key
    · simp [opt_part, end_violates, h]
    · simp [opt_part, end_violates, h]

theorem opt_part_eq_nil {L : DateTime} {oe : Option DateTime}
    (f : DateTime → DateTime → String) (h : end_violates L oe = false) :
    opt_part L f oe = [] := by
  cases oe with
  | none => rfl
  | some e =>
    simp only [end_violates, decide_eq_false_iff_not] at h
    simp [opt_part, h]

-- Claim theorems.

/-- C1: for a unit of work whose run has a non-null logical date L, with the
clock reading C taken during the call (all timestamps timezone-aware), the
future-date failing status — whose reason cites both timestamps in ISO-8601
form — is yielded iff L > C, and when L > C holds while neither end-of-validity
condition holds, the evaluation yields exactly that one failing status. -/
theorem c1_future_date_iff (ti : TaskInstance) (cur L : DateTime)
    (hL : ti.dag_run.logical_date = some L)
    (hc : L.aware = cur.aware)
    (ht : ∀ e, ti.task.end_date = some e → L.aware = e.aware)
    (hd : ∀ e, dag_end_date ti.task.dag = some e → L.aware = e.aware) :
    ∃ l, get_dep_statuses ti cur = Except.ok l ∧
      (failing_status (future_reason L cur) ∈ l ↔ cur.key < L.key) ∧
      ((cur.key < L.key ∧ end_violates L ti.task.end_date = false ∧
          end_violates L (dag_end_date ti.task.dag) = false) →
        l = [failing_status (future_reason L cur)]) := by
  refine ⟨_, get_dep_statuses_eq ti cur L hL hc ht hd, ?_, ?_⟩
  · constructor
    · intro hmem
      rcases List.mem_append.mp hmem with hm | hm
      · rcases List.mem_append.mp hm with hm1 | hm1
        · exact (mem_if_singleton hm1).1
        · obtain ⟨e, _, _, hseq⟩ := mem_opt_part hm1
          exact absurd (failing_status_inj hseq) (future_reason_ne_task_end_reason L cur L e)
      · obtain ⟨e, _, _, hseq⟩ := mem_opt_part hm
        exact absurd (failing_status_inj hseq) (future_reason_ne_dag_end_reason L cur L e)
    · intro hlt
      refine List.mem_append.mpr (Or.inl (List.mem_append.mpr (Or.inl ?_)))
      rw [if_pos hlt]
      exact List.mem_singleton.mpr rfl
  · rintro ⟨h1, h2, h3⟩
    rw [if_pos h1, opt_part_eq_nil task_end_reason h2, opt_part_eq_nil dag_end_reason h3]
    rfl

/-- Witness for C1: a run with logical date 2024-01-01, no end dates, clock
2023-01-01. -/
theorem c1_witness :
    ∃ l, get_dep_statuses ti_fut dt2023 = Except.ok l ∧
      (failing_status (future_reason dt2024 dt2023) ∈ l ↔ dt2023.key < dt2024.key) ∧
      ((dt2023.key < dt2024.key ∧ end_violates dt2024 ti_fut.task.end_date = false ∧
          end_violates dt2024 (dag_end_date ti_fut.task.dag) = false) →
        l = [failing_status (future_reason dt2024 dt2023)]) :=
  c1_future_date_iff ti_fut dt2023 dt2024 rfl rfl
    (fun e h => by simp [ti_fut] at h)
    (fun e h => by simp [ti_fut, dag_end_date] at h)

/-- C2: when the owning run has no logical date, one evaluation yields zero
failing statuses and raises no error, regardless of the clock reading and of
any end dates, and is_met over this dependency alone is true. -/
theorem c2_null_logical_date_vacuous (ti : TaskInstance) (cur : DateTime)
    (hL : ti.dag_run.logical_date = none) :
    get_dep_statuses ti cur = Except.ok [] ∧ is_met ti cur = Except.ok true := by
  have h : get_dep_statuses ti cur = Except.ok [] := by
    simp only [get_dep_statuses, TaskInstance.get_dagrun, hL]
  refine ⟨h, ?_⟩
  simp [is_met, h, Except.map]

/-- Witness for C2: a run without logical date, with both end dates set, at
clock 2023-06-01. -/
theorem c2_witness :
    get_dep_statuses ti_nolog dt2023jun = Except.ok [] ∧
    is_met ti_nolog dt2023jun = Except.ok true :=
  c2_null_logical_date_vacuous ti_nolog dt2023jun rfl

/-- C3: with a non-null logical date (timezone-aware inputs), one evaluation
yields one failing status per check whose condition holds, without
short-circuiting: the number of yielded statuses equals the number of holding
conditions, and is between 0 and 3. -/
theorem c3_status_count (ti : TaskInstance) (cur L : DateTime)
    (hL : ti.dag_run.logical_date = some L)
    (hc : L.aware = cur.aware)
    (ht : ∀ e, ti.task.end_date = some e → L.aware = e.aware)
    (hd : ∀ e, dag_end_date ti.task.dag = some e → L.aware = e.aware) :
    ∃ l, get_dep_statuses ti cur = Except.ok l ∧
      l.length = (if cur.key < L.key then 1 else 0)
        + (if end_violates L ti.task.end_date then 1 else 0)
        + (if end_violates L (dag_end_date ti.task.dag) then 1 else 0) ∧
      l.length ≤ 3 := by
  have hfl : (if cur.key < L.key then [failing_status (future_reason L cur)]
      else ([] : List TIDepStatus)).length = if cur.key < L.key then 1 else 0 := by
    split_ifs <;> rfl
  refine ⟨_, get_dep_statuses_eq ti cur L hL hc ht hd, ?_, ?_⟩
  · simp only [List.length_append, length_opt_part, hfl]
  · simp only [List.length_append, length_opt_part, hfl]
    have h1 : (if cur.key < L.key then 1 else 0) ≤ 1 := by split_ifs <;> omega
    have h2 : (if end_violates L ti.task.end_date then 1 else 0) ≤ 1 := by
      split_ifs <;> omega
    have h3 : (if end_violates L (dag_end_date ti.task.dag) then 1 else 0) ≤ 1 := by
      split_ifs <;> omega
    omega

/-- Witness for C3: logical date 2023-01-01, task and DAG end dates 2022-01-01,
clock 2023-06-01: two conditionshold, two statuses. -/
theorem c3_witness :
    ∃ l, get_dep_statuses ti_rich dt2023jun = Except.ok l ∧
      l.length = (if dt2023jun.key < dt2023.key then 1 else 0)
        + (if end_violates dt2023 ti_rich.task.end_date then 1 else 0)
        + (if end_violates dt2023 (dag_end_date ti_rich.task.dag) then 1 else 0) ∧
      l.length ≤ 3 :=
  c3_status_count ti_rich dt2023jun dt2023 rfl rfl
    (fun e h => by simp [ti_rich] at h; subst h; rfl)
    (fun e h => by simp [ti_rich, dag_end_date] at h; subst h; rfl)

/-- C4: with a non-null logical date L (timezone-aware inputs), the task
end-date failing status, citing both values, is yielded iff the task has an
end date and L is strictly greater than it. -/
theorem c4_task_end_iff (ti : TaskInstance) (cur L : DateTime)
    (hL : ti.dag_run.logical_date = some L)
    (hc : L.aware = cur.aware)
    (ht : ∀ e, ti.task.end_date = some e → L.aware = e.aware)
    (hd : ∀ e, dag_end_date ti.task.dag = some e → L.aware = e.aware) :
    ∃ l, get_dep_statuses ti cur = Except.ok l ∧
      ((∃ e, ti.task.end_date = some e ∧ failing_status (task_end_reason L e) ∈ l) ↔
        (∃ e, ti.task.end_date = some e ∧ e.key < L.key)) := by
  refine ⟨_, get_dep_statuses_eq ti cur L hL hc ht hd, ?_⟩
  constructor
  · rintro ⟨e, he, hmem⟩
    refine ⟨e, he, ?_⟩
    rcases List.mem_append.mp hmem with hm | hm
    · rcases List.mem_append.mp hm with hm1 | hm1
      · obtain ⟨_, hseq⟩ := mem_if_singleton hm1
        exact absurd (failing_status_inj hseq).symm
          (future_reason_ne_task_end_reason L cur L e)
      · obtain ⟨e2, he2, hlt2, _⟩ := mem_opt_part hm1
        obtain rfl : e = e2 := Option.some.inj (he.symm.trans he2)
        exact hlt2
    · obtain ⟨e2, _, _, hseq⟩ := mem_opt_part hm
      exact absurd (failing_status_inj hseq)
        (task_end_reason_ne_dag_end_reason L e L e2)
  · rintro ⟨e, he, hlt⟩
    refine ⟨e, he, List.mem_append.mpr (Or.inl (List.mem_append.mpr (Or.inr ?_)))⟩
    rw [opt_part_eq_singleton task_end_reason he hlt]
    exact List.mem_singleton.mpr rfl

/-- Witness for C4 at ti_rich with clock 2023-06-01. -/
theorem c4_witness :
    ∃ l, get_dep_statuses ti_rich dt2023jun = Except.ok l ∧
      ((∃ e, ti_rich.task.end_date = some e ∧
          failing_status (task_end_reason dt2023 e) ∈ l) ↔
        (∃ e, ti_rich.task.end_date = some e ∧ e.key < dt2023.key)) :=
  c4_task_end_iff ti_rich dt2023jun dt2023 rfl rfl
    (fun e h => by simp [ti_rich] at h; subst h; rfl)
    (fun e h => by simp [ti_rich, dag_end_date] at h; subst h; rfl)

/-- C5: with a non-null logical date L (timezone-aware inputs), the workflow
end-date failing status, citing both values, is yielded iff the owning DAG is
present with an end date of its own and L is strictly greater than it. -/
theorem c5_dag_end_iff (ti : TaskInstance) (cur L : DateTime)
    (hL : ti.dag_run.logical_date = some L)
    (hc : L.aware = cur.aware)
    (ht : ∀ e, ti.task.end_date = some e → L.aware = e.aware)
    (hd : ∀ e, dag_end_date ti.task.dag = some e → L.aware = e.aware) :
    ∃ l, get_dep_statuses ti cur = Except.ok l ∧
      ((∃ e, dag_end_date ti.task.dag = some e ∧
          failing_status (dag_end_reason L e) ∈ l) ↔
        (∃ e, dag_end_date ti.task.dag = some e ∧ e.key < L.key)) := by
  refine ⟨_, get_dep_statuses_eq ti cur L hL hc ht hd, ?_⟩
  constructor
  · rintro ⟨e, he, hmem⟩
    refine ⟨e, he, ?_⟩
    rcases List.mem_append.mp hmem with hm | hm
    · rcases List.mem_append.mp hm with hm1 | hm1
      · obtain ⟨_, hseq⟩ := mem_if_singleton hm1
        exact absurd (failing_status_inj hseq).symm
          (future_reason_ne_dag_end_reason L cur L e)
      · obtain ⟨e2, _, _, hseq⟩ := mem_opt_part hm1
        exact absurd (failing_status_inj hseq).symm
          (task_end_reason_ne_dag_end_reason L e2 L e)
    · obtain ⟨e2, he2, hlt2, _⟩ := mem_opt_part hm
      obtain rfl : e = e2 := Option.some.inj (he.symm.trans he2)
      exact hlt2
  · rintro ⟨e, he, hlt⟩
    refine ⟨e, he, List.mem_append.mpr (Or.inr ?_)⟩
    rw [opt_part_eq_singleton dag_end_reason he hlt]
    exact List.mem_singleton.mpr rfl

/-- Witness for C5 at ti_rich with clock 2023-06-01. -/
theorem c5_witness :
    ∃ l, get_dep_statuses ti_rich dt2023jun = Except.ok l ∧
      ((∃ e, dag_end_date ti_rich.task.dag = some e ∧
          failing_status (dag_end_reason dt2023 e) ∈ l) ↔
        (∃ e, dag_end_date ti_rich.task.dag = some e ∧ e.key < dt2023.key)) :=
  c5_dag_end_iff ti_rich dt2023jun dt2023 rfl rfl
    (fun e h => by simp [ti_rich] at h; subst h; rfl)
    (fun e h => by simp [ti_rich, dag_end_date] at h; subst h; rfl)

/-- C6: scenario 2 of the spec: logical date 2023-01-01T00:00:00Z, task end
date 2022-01-01T00:00:00Z, workflow end date absent, clock 2023-06-01T00:00:00Z.
One evaluation yields exactly one failing status — the task end-date violation
— and does not yield the future-date status. -/
theorem c6_scenario_two :
    get_dep_statuses ti_s2 dt2023jun =
      Except.ok [failing_status (task_end_reason dt2023 dt2022)] ∧
    failing_status (future_reason dt2023 dt2023jun) ∉
      [failing_status (task_end_reason dt2023 dt2022)] := by
  constructor
  · rfl
  · intro hmem
    exact future_reason_ne_task_end_reason dt2023 dt2023jun dt2023 dt2022
      (failing_status_inj (List.mem_singleton.mp hmem))

/-- C7 counterexample: at logical date 2024-01-01 and clock 2023-01-01 the
evaluation yields one failing status whose reason does not contain the
fragment "(current date is " of the wording quoted in the spec, although the
spec wording itself does contain it: the code wording ("the current date is")
differs from the spec wording ("current date is"). -/
theorem c7_counterexample :
    get_dep_statuses ti_fut dt2023 =
      Except.ok [failing_status (future_reason dt2024 dt2023)] ∧
    contains_sub ("(current date is ").data (spec_future_wording dt2023).data = true ∧
    contains_sub ("(current date is ").data (future_reason dt2024 dt2023).data = false := by
  refine ⟨rfl, by decide, by decide⟩

/-- C7 amended: every failing status yielded by the dependency is failing
(passed = false) and carries one of the three reason wordings of the code —
the future-date wording citing logical date and current date, the task
end-date wording citing logical date and task end date, or the DAG end-date
wording citing logical date and DAG end date — all timestamps rendered in
ISO-8601 form (the code wording differs from the fragments quoted in the
spec). -/
theorem c7_reason_wording (ti : TaskInstance) (cur L : DateTime)
    (hL : ti.dag_run.logical_date = some L)
    (hc : L.aware = cur.aware)
    (ht : ∀ e, ti.task.end_date = some e → L.aware = e.aware)
    (hd : ∀ e, dag_end_date ti.task.dag = some e → L.aware = e.aware) :
    ∃ l, get_dep_statuses ti cur = Except.ok l ∧
      ∀ s ∈ l, s.passed = false ∧
        (s.reason = future_reason L cur ∨
          (∃ e, ti.task.end_date = some e ∧ s.reason = task_end_reason L e) ∨
          (∃ e, dag_end_date ti.task.dag = some e ∧ s.reason = dag_end_reason L e)) := by
  refine ⟨_, get_dep_statuses_eq ti cur L hL hc ht hd, ?_⟩
  intro s hs
  rcases List.mem_append.mp hs with hm | hm
  · rcases List.mem_append.mp hm with hm1 | hm1
    · obtain ⟨_, rfl⟩ := mem_if_singleton hm1
      exact ⟨rfl, Or.inl rfl⟩
    · obtain ⟨e, he, _, rfl⟩ := mem_opt_part hm1
      exact ⟨rfl, Or.inr (Or.inl ⟨e, he, rfl⟩)⟩
  · obtain ⟨e, he, _, rfl⟩ := mem_opt_part hm
    exact ⟨rfl, Or.inr (Or.inr ⟨e, he, rfl⟩)⟩

/-- Witness for the amended C7 at ti_rich with clock 2023-06-01. -/
theorem c7_witness :
    ∃ l, get_dep_statuses ti_rich dt2023jun = Except.ok l ∧
      ∀ s ∈ l, s.passed = false ∧
        (s.reason = future_reason dt2023 dt2023jun ∨
          (∃ e, ti_rich.task.end_date = some e ∧ s.reason = task_end_reason dt2023 e) ∨
          (∃ e, dag_end_date ti_rich.task.dag = some e ∧
            s.reason = dag_end_reason dt2023 e)) :=
  c7_reason_wording ti_rich dt2023jun dt2023 rfl rfl
    (fun e h => by simp [ti_rich] at h; subst h; rfl)
    (fun e h => by simp [ti_rich, dag_end_date] at h; subst h; rfl)

/-- C8: two evaluation calls with identical logical date, task end date,
effective workflow end date and clock reading produce identical status
sequences (same length, order and reasons). -/
theorem c8_idempotent (ti1 ti2 : TaskInstance) (cur1 cur2 : DateTime)
    (h1 : ti1.dag_run.logical_date = ti2.dag_run.logical_date)
    (h2 : ti1.task.end_date = ti2.task.end_date)
    (h3 : dag_end_date ti1.task.dag = dag_end_date ti2.task.dag)
    (h4 : cur1 = cur2) :
    get_dep_statuses ti1 cur1 = get_dep_statuses ti2 cur2 := by
  subst h4
  simp only [get_dep_statuses, TaskInstance.get_dagrun, h1, h2,
    dag_end_check_via_end_date, h3]

/-- Witness for C8: two structurally different task instances (DAG absent
versus DAG present without end date) with the same logical date, task end
date, effective workflow end date and clock reading. -/
theorem c8_witness :
    get_dep_statuses ti_fut dt2023 = get_dep_statuses ti_fut2 dt2023 :=
  c8_idempotent ti_fut ti_fut2 dt2023 dt2023 rfl rfl rfl rfl

/-- C9: when the evaluation reaches a comparison between a timezone-aware and
a timezone-naive timestamp (logical date against the clock reading, the task
end date, or the workflow end date), the comparison TypeError propagates out
of the call as the error result, and no list of failing statuses masking the
mismatch is produced. -/
theorem c9_naive_aware_error (ti : TaskInstance) (cur L : DateTime)
    (hL : ti.dag_run.logical_date = some L)
    (hmix : ¬ L.aware = cur.aware ∨
      (∃ e, ti.task.end_date = some e ∧ ¬ L.aware = e.aware) ∨
      (∃ e, dag_end_date ti.task.dag = some e ∧ ¬ L.aware = e.aware)) :
    get_dep_statuses ti cur = Except.error () := by
  simp only [get_dep_statuses, TaskInstance.get_dagrun, hL]
  rcases hmix with h | ⟨e, he, h⟩ | ⟨e, he, h⟩
  · simp [future_check, py_gt, h]
  · cases hf : future_check L cur with
    | error u => cases u; rfl
    | ok s1 =>
      rw [he]
      simp [task_end_check, py_gt, h]
  · cases hf : future_check L cur with
    | error u => cases u; rfl
    | ok s1 =>
      cases hg : task_end_check L ti.task.end_date with
      | error u => cases u; rfl
      | ok s2 =>
        simp only [dag_end_check_via_end_date, he]
        simp [py_gt, h]

/-- Witness for C9: a naive logical date compared against the aware clock. -/
theorem c9_witness : get_dep_statuses ti_naive dt2023 = Except.error () :=
  c9_naive_aware_error ti_naive dt2023 dtnaive rfl (Or.inl (by decide))

/-- C10: when the task has no DAG reference at all, evaluation with a present
logical date (timezone-aware inputs) completes without error, skips the
workflow end-date check, and yields at most the future-date and task end-date
statuses. -/
theorem c10_no_dag_skips_workflow_check (ti : TaskInstance) (cur L : DateTime)
    (hdag : ti.task.dag = none)
    (hL : ti.dag_run.logical_date = some L)
    (hc : L.aware = cur.aware)
    (ht : ∀ e, ti.task.end_date = some e → L.aware = e.aware) :
    ∃ l, get_dep_statuses ti cur = Except.ok l ∧ l.length ≤ 2 ∧
      ∀ s ∈ l, s.reason = future_reason L cur ∨
        ∃ e, ti.task.end_date = some e ∧ s.reason = task_end_reason L e := by
  have hdd : dag_end_date ti.task.dag = none := by
    rw [hdag]
    rfl
  have hd : ∀ e, dag_end_date ti.task.dag = some e → L.aware = e.aware := by
    intro e h
    rw [hdd] at h
    exact Option.noConfusion h
  refine ⟨_, get_dep_statuses_eq ti cur L hL hc ht hd, ?_, ?_⟩
  · have hfl : (if cur.key < L.key then [failing_status (future_reason L cur)]
        else ([] : List TIDepStatus)).length ≤ 1 := by
      split_ifs <;> simp
    have htl : (opt_part L task_end_reason ti.task.end_date).length ≤ 1 := by
      rw [length_opt_part]
      split_ifs <;> omega
    have hdl : (opt_part L dag_end_reason (dag_end_date ti.task.dag)).length = 0 := by
      rw [hdd]
      rfl
    simp only [List.length_append]
    omega
  · intro s hs
    rcases List.mem_append.mp hs with hm | hm
    · rcases List.mem_append.mp hm with hm1 | hm1
      · obtain ⟨_, rfl⟩ := mem_if_singleton hm1
        exact Or.inl rfl
      · obtain ⟨e, he, _, rfl⟩ := mem_opt_part hm1
        exact Or.inr ⟨e, he, rfl⟩
    · rw [hdd] at hm
      exact absurd hm (List.not_mem_nil s)

/-- Witness for C10: no DAG, task end date 2022-01-01, logical date
2023-01-01, clock 2023-06-01. -/
theorem c10_witness :
    ∃ l, get_dep_statuses ti_nodag dt2023jun = Except.ok l ∧ l.length ≤ 2 ∧
      ∀ s ∈ l, s.reason = future_reason dt2023 dt2023jun ∨
        ∃ e, ti_nodag.task.end_date = some e ∧ s.reason = task_end_reason dt2023 e :=
  c10_no_dag_skips_workflow_check ti_nodag dt2023jun dt2023 rfl rfl rfl
    (fun e h => by simp [ti_nodag] at h; subst h; rfl)
